import Mathlib

/-!
Verification of the Retail copilot hybrid query orchestration engine.

The Lean definitions below are a shallow embedding of the Python sources:
  * `src/agent/dspy_signatures.py`  (route normalization, SQL cleanup)
  * `src/agent/rag/retrieval.py`    (Retriever.search)
  * `src/agent/tools/sqlite_tool.py` (QueryResult shape)
  * `src/agent/graph_hybrid.py`     (HybridAgent: nodes, edges, post-processing)

External collaborators (the DSPy language-model completion calls, the sqlite
engine, the sklearn tf-idf vectorizer / cosine similarity, and `json.loads` /
`json.dumps` from the standard library) are modelled as oracle parameters:
functions supplied as arguments, about which nothing is assumed.

Python `dict` reads of a possibly-missing key are modelled with `Except`:
reading `"success"` out of the initial empty `sql_results` mapping is a
`KeyError`, exactly as in CPython.  Python `float` arithmetic is idealized
as `ℚ`, with `round(x, 2)` modelled as round-half-to-even at 2 decimals.
-/

namespace RetailCopilot

/-- Python exceptions that the embedded code can raise. -/
inductive PyError where
  | keyError (key : String)
  | valueError
  | attributeError
  | recursionLimit
  deriving DecidableEq, Repr

/-! ## String helpers (Python `in`, `lower`/`upper`, `strip`) -/

/-- The Python substring test `pat in s`, via list-infix decidability. -/
def strContains (s pat : String) : Bool :=
  decide (pat.toList <:+: s.toList)

/-- Python `str.lower()` (ASCII case mapping). -/
def lowerStr (s : String) : String := String.mk (s.data.map Char.toLower)

/-- Python `str.upper()` (ASCII case mapping). -/
def upperStr (s : String) : String := String.mk (s.data.map Char.toUpper)

/-- Python `str.strip()`: drop leading and trailing whitespace. -/
def stripChars (cs : List Char) : List Char :=
  ((cs.dropWhile Char.isWhitespace).reverse.dropWhile Char.isWhitespace).reverse

def stripStr (s : String) : String := String.mk (stripChars s.data)

/-- Split at the first occurrence of `sep`: text before it and text after
it.  `none` when `sep` does not occur. -/
def splitFirst (sep : List Char) : List Char → Option (List Char × List Char)
  | [] => none
  | c :: t =>
    if sep.isPrefixOf (c :: t) then some ([], (c :: t).drop sep.length)
    else
      match splitFirst sep t with
      | some (pre, post) => some (c :: pre, post)
      | none => none

/-- Python `s.split(sep)[1]` for a separator that occurs in `s`: the text
between the first two occurrences of `sep`, or everything after the first
occurrence when it is the only one. -/
def splitSecond (sep cs : List Char) : List Char :=
  match splitFirst sep cs with
  | none => []
  | some (_, rest) =>
    match splitFirst sep rest with
    | none => rest
    | some (pre2, _) => pre2

/-! ## `Router.forward` (src/agent/dspy_signatures.py lines 37-50)

The DSPy completion returns a free-text label `result.route`; the method
lower-cases and strips it, then normalizes by substring match in priority
order hybrid > sql > rag, defaulting to hybrid. -/

/-- Normalization applied by `Router.forward` to the raw completion label
(`route = result.route.lower().strip()` then the substring cascade). -/
def normalizeRoute (raw : String) : String :=
  if strContains (stripStr (lowerStr raw)) "hybrid" then "hybrid"
  else if strContains (stripStr (lowerStr raw)) "sql" then "sql"
  else if strContains (stripStr (lowerStr raw)) "rag" then "rag"
  else "hybrid"

/-- Embedding of `Router.forward`: the classification call is an oracle;
the method returns the normalized label. -/
def Router.forward (classify : String → String) (question : String) : String :=
  normalizeRoute (classify question)

/-- SQL cleanup shared by `NLToSQL.forward` and `SQLRepair.forward`
(dspy_signatures.py lines 59-68 and 77-86): strip, keep the text between
the first pair of code fences, drop a leading `sql` language tag, strip. -/
def cleanSql (raw : String) : String :=
  if strContains (stripStr raw) "```" then
    let sql := splitSecond "```".data (stripStr raw).data
    stripStr (String.mk
      (if "sql\n".data.isPrefixOf sql then sql.drop 4 else sql))
  else stripStr raw

/-! ## `Retriever.search` (src/agent/rag/retrieval.py lines 42-63)

The tf-idf vectorizer and `cosine_similarity` are sklearn externals: the
similarity row (one score per chunk, in chunk load order) enters the model
as the oracle input `sims`.  `np.argsort` is modelled as the stable
ascending argsort: indices ordered by the lexicographic key
(similarity, index).  The Python slice `[-top_k:]` keeps the whole array
when `top_k = 0` (since `-0 == 0`), else the last `top_k` entries. -/

/-- A corpus chunk (retrieval.py `Chunk`). -/
structure Chunk where
  id : String
  content : String
  source : String
  deriving DecidableEq, Repr

/-- One search hit: the dict `{id, content, source, score}` built by
`Retriever.search`. -/
structure SearchResult where
  id : String
  content : String
  source : String
  score : ℚ
  deriving DecidableEq, Repr

/-- Similarity of chunk `i` (0 outside the array, never hit in range). -/
def simAt (sims : List ℚ) (i : Nat) : ℚ := sims.getD i 0

/-- Ascending argsort key: compare similarities, ties by original index. -/
def KeyLE (sims : List ℚ) (i j : Nat) : Prop :=
  simAt sims i < simAt sims j ∨ (simAt sims i = simAt sims j ∧ i ≤ j)

instance (sims : List ℚ) : DecidableRel (KeyLE sims) := fun i j => by
  unfold KeyLE; infer_instance

instance (sims : List ℚ) : IsTotal Nat (KeyLE sims) := by
  constructor
  intro i j
  rcases lt_trichotomy (simAt sims i) (simAt sims j) with h | h | h
  · exact Or.inl (Or.inl h)
  · rcases Nat.le_total i j with hij | hij
    · exact Or.inl (Or.inr ⟨h, hij⟩)
    · exact Or.inr (Or.inr ⟨h.symm, hij⟩)
  · exact Or.inr (Or.inl h)

instance (sims : List ℚ) : IsTrans Nat (KeyLE sims) := by
  constructor
  intro i j k hij hjk
  rcases hij with h1 | ⟨h1, h1n⟩
  · rcases hjk with h2 | ⟨h2, _⟩
    · exact Or.inl (h1.trans h2)
    · exact Or.inl (h2 ▸ h1)
  · rcases hjk with h2 | ⟨h2, h2n⟩
    · exact Or.inl (h1 ▸ h2)
    · exact Or.inr ⟨h1.trans h2, h1n.trans h2n⟩

/-- Model of `np.argsort(similarities)`: stable ascending argsort of the
index list. -/
def argsortAsc (sims : List ℚ) : List Nat :=
  List.insertionSort (KeyLE sims) (List.range sims.length)

/-- Python tail slice `a[-k:]`: the whole list when `k = 0`, else the last
`k` elements. -/
def pyTailSlice (k : Nat) (l : List α) : List α :=
  if k = 0 then l else l.drop (l.length - k)

/-- The expression `np.argsort(similarities)[-top_k:][::-1]`. -/
def searchIndices (sims : List ℚ) (top_k : Nat) : List Nat :=
  (pyTailSlice top_k (argsortAsc sims)).reverse

def defaultChunk : Chunk := ⟨"", "", ""⟩

/-- Embedding of `Retriever.search`: empty corpus short-circuits to `[]`,
otherwise the
top indices are mapped to result dicts annotated with their scores. -/
def Retriever.search (chunks : List Chunk) (sims : List ℚ) (top_k : Nat) :
    List SearchResult :=
  if chunks.isEmpty then []
  else
    (searchIndices sims top_k).map fun idx =>
      let c := chunks.getD idx defaultChunk
      ⟨c.id, c.content, c.source, simAt sims idx⟩

/-! ## `SQLiteTool.execute_query` result shape (sqlite_tool.py lines 36-63)

The sqlite engine itself is external; only the shape of the result dict
matters.
Row cell values are modelled as strings (no claim inspects them). -/

/-- The dict returned by `execute_query` (and the trivial empty-SQL result
synthesized by the executor; that dict omits the `error` key, which nothing
on that path reads — modelled here as `error = none`). -/
structure QueryResult where
  success : Bool
  columns : List String
  rows : List (List (String × String))
  error : Option String
  deriving DecidableEq, Repr

/-- The `sql_results` state field: either the initial empty dict `{}` set
by `HybridAgent.run`, or a full result dict installed by the executor.
Reading `"success"` from the empty dict is a `KeyError`. -/
inductive SqlResults where
  | emptyDict
  | result (q : QueryResult)
  deriving DecidableEq, Repr

/-! ## Python `round(·, 2)` on the ℚ idealization of float -/

/-- Round-half-to-even to an integer (Python `round`). -/
def roundHalfEven (q : ℚ) : ℤ :=
  if Int.fract q < 1/2 then ⌊q⌋
  else if 1/2 < Int.fract q then ⌊q⌋ + 1
  else if ⌊q⌋ % 2 = 0 then ⌊q⌋ else ⌊q⌋ + 1

/-- Python `round(q, 2)`. -/
def round2 (q : ℚ) : ℚ := (roundHalfEven (q * 100) : ℚ) / 100

/-! ## Answer post-processing (graph_hybrid.py lines 201-268) -/

/-- The polymorphic final answer value produced by `_parse_answer`.
`jsonVal` stands for an arbitrary structured literal produced by
`json.loads` (its payload is opaque to every claim). -/
inductive AnswerValue where
  | intVal (n : Nat)
  | floatVal (q : ℚ)
  | jsonVal (payload : String)
  | textVal (s : String)
  deriving DecidableEq, Repr

/-- First match of a maximal run of characters satisfying `p` (the first
match of `\d+` resp. `[\d.]+` under `re.search`). -/
def firstRunBy (p : Char → Bool) : List Char → Option (List Char)
  | [] => none
  | c :: t => if p c then some (c :: t.takeWhile p) else firstRunBy p t

/-- Digits-to-number (Python `int` on a digit run). -/
def natOfDigits (cs : List Char) : Nat :=
  cs.foldl (fun n c => 10 * n + (c.toNat - 48)) 0

/-- Python `float` applied to a `[\d.]+` match: defined iff the text has at
most one dot and at least one digit. -/
def pyFloatOfDigitsDots (cs : List Char) : Option ℚ :=
  if cs.count '.' ≤ 1 ∧ cs.any Char.isDigit then
    some ((natOfDigits (cs.takeWhile (fun c => c != '.')) : ℚ) +
      (natOfDigits ((cs.dropWhile (fun c => c != '.')).drop 1) : ℚ) /
        (10 : ℚ) ^ ((cs.dropWhile (fun c => c != '.')).drop 1).length)
  else none

/-- The markdown-fence stripping at the top of `_parse_answer`
(graph_hybrid.py lines 203-210): strip; if a fence is present keep
the slot 1 fence split, drop a leading json tag, strip again. -/
def stripFences (raw : String) : String :=
  if strContains (stripStr raw) "```" then
    let answer := splitSecond "```".data (stripStr raw).data
    stripStr (String.mk
      (if "json\n".data.isPrefixOf answer then answer.drop 5 else answer))
  else stripStr raw

/-- The `try` block of `_parse_answer` (lines 212-225), dispatching on the
format hint; `Except.error` marks exactly the places where CPython raises
(`.group()` on a failed `int` search, `float()` on a malformed match,
`json.loads` failures). -/
def parseByHint (jsonLoads : String → Option AnswerValue)
    (answer format_hint : String) : Except PyError AnswerValue :=
  if format_hint = "int" then
    match firstRunBy Char.isDigit answer.toList with
    | some run => .ok (.intVal (natOfDigits run))
    | none => .error .attributeError
  else if format_hint = "float" then
    match firstRunBy (fun c => c.isDigit || c == '.') answer.toList with
    | some run =>
      match pyFloatOfDigitsDots run with
      | some q => .ok (.floatVal (round2 q))
      | none => .error .valueError
    | none => .ok (.floatVal 0)
  else if strContains format_hint "list[" then
    match jsonLoads answer with
    | some v => .ok v
    | none => .error .valueError
  else if strContains format_hint "\x7b" then
    match jsonLoads answer with
    | some v => .ok v
    | none => .error .valueError
  else .ok (.textVal answer)

/-- Embedding of `HybridAgent._parse_answer` (lines 201-231): hint-directed
parse; on any
exception fall back to a bare `json.loads`, and if that fails too return the
(stripped) text.  Total by construction: no exception escapes. -/
def parse_answer (jsonLoads : String → Option AnswerValue)
    (raw format_hint : String) : AnswerValue :=
  match parseByHint jsonLoads (stripFences raw) format_hint with
  | .ok v => v
  | .error _ =>
    match jsonLoads (stripFences raw) with
    | some v => v
    | none => .textVal (stripFences raw)

/-- The fixed table list scanned by `_extract_citations` (line 245). -/
def knownTables : List String :=
  ["Orders", "Order Details", "Products", "Customers", "Categories",
   "Suppliers"]

/-- Body of `HybridAgent._extract_citations` (lines 233-250) once
`sql_results` is known to be a full result dict: chunk ids with score above
0.1, then (if SQL succeeded and is non-empty) every known table name found
in the upper-cased SQL, deduplicated by `list(set(...))`. -/
def extract_citations_ok (retrieved_docs : List SearchResult)
    (q : QueryResult) (sql : String) : List String :=
  let docCits := (retrieved_docs.filter fun d => (1 : ℚ)/10 < d.score).map
    SearchResult.id
  (if q.success = true ∧ sql ≠ "" then
    docCits ++ knownTables.filter fun t =>
      strContains (upperStr sql) (upperStr t) ||
        strContains (upperStr sql) ("\"" ++ upperStr t ++ "\"")
  else docCits).dedup

/-- Embedding of `HybridAgent._extract_citations`: reading `"success"` from
the initial
empty `sql_results` dict raises. -/
def extract_citations (retrieved_docs : List SearchResult)
    (sql_results : SqlResults) (sql : String) : Except PyError (List String) :=
  match sql_results with
  | .emptyDict => .error (.keyError "success")
  | .result q => .ok (extract_citations_ok retrieved_docs q sql)

/-- Body of `HybridAgent._calculate_confidence` (lines 252-268) once
`sql_results` is a full result dict: 0.5, plus 0.3 for successful non-empty
SQL, plus mean retrieval score times 0.2 when any docs were retrieved,
minus 0.1 per repair, clamped to [0, 1] and rounded to 2 decimals. -/
def confidence_ok (retrieved_docs : List SearchResult) (q : QueryResult)
    (repair_count : Nat) : ℚ :=
  round2 (max 0 (min 1
    ((if q.success && !q.rows.isEmpty then (1 : ℚ)/2 + 3/10 else 1/2)
      + (if !retrieved_docs.isEmpty then
          ((retrieved_docs.map SearchResult.score).sum /
            retrieved_docs.length) * (2/10)
        else 0)
      - repair_count * (1/10))))

/-- Embedding of `HybridAgent._calculate_confidence`: reading `"success"`
from the
initial empty `sql_results` dict raises. -/
def calculate_confidence (retrieved_docs : List SearchResult)
    (sql_results : SqlResults) (repair_count : Nat) : Except PyError ℚ :=
  match sql_results with
  | .emptyDict => .error (.keyError "success")
  | .result q => .ok (confidence_ok retrieved_docs q repair_count)

/-! ## The orchestration state machine (graph_hybrid.py lines 9-296) -/

/-- The LangGraph `AgentState` TypedDict. -/
structure AgentState where
  question : String
  format_hint : String
  route : String
  retrieved_docs : List SearchResult
  sql : String
  sql_results : SqlResults
  final_answer : Option AnswerValue
  explanation : String
  citations : List String
  confidence : ℚ
  repair_count : Nat
  trace : List String
  deriving DecidableEq, Repr

/-- The external collaborators of one `HybridAgent`: the four completion
ports (raw text before normalization/cleanup), the retriever search (tf-idf
ranking), the sqlite adapter, the schema string, and `json` stdlib calls. -/
structure Oracles where
  classify : String → String
  retrieve : String → List SearchResult
  schema : String
  genSqlRaw : String → String → String → String
  repairRaw : String → String → String → String
  synth : String → String → String → String → String × String
  dbExecute : String → QueryResult
  jsonLoads : String → Option AnswerValue
  jsonDumps : List (List (String × String)) → String

/-- Number of `\d{4}-\d{2}-\d{2}` matches at the head of the text. -/
def isDateAt (cs : List Char) : Bool :=
  match cs with
  | a :: b :: c :: d :: h1 :: e :: f :: h2 :: g :: h :: _ =>
    a.isDigit && b.isDigit && c.isDigit && d.isDigit && h1 == '-' &&
      e.isDigit && f.isDigit && h2 == '-' && g.isDigit && h.isDigit
  | _ => false

/-- Match count of the date pattern (4 digits, dash, 2 digits, dash,
2 digits) under re.findall: non-overlapping, left to right. -/
def countDatesAux : List Char → Nat
  | [] => 0
  | c :: t =>
    if isDateAt (c :: t) then 1 + countDatesAux (t.drop 9)
    else countDatesAux t
termination_by l => l.length
decreasing_by
  · simp only [List.length_drop, List.length_cons]
    omega
  · simp only [List.length_cons]
    omega

def countDates (s : String) : Nat := countDatesAux s.toList

/-- Embedding of `HybridAgent._route_node` (lines 84-89). -/
def route_node (O : Oracles) (s : AgentState) : AgentState :=
  let route := Router.forward O.classify s.question
  { s with route := route, trace := s.trace ++ ["Routed to: " ++ route] }

/-- Embedding of `HybridAgent._retriever_node` (lines 91-96):
`search(question, top_k=3)`. -/
def retriever_node (O : Oracles) (s : AgentState) : AgentState :=
  let results := O.retrieve s.question
  { s with retrieved_docs := results,
           trace := s.trace ++
             ["Retrieved " ++ toString results.length ++ " docs"] }

/-- Embedding of `HybridAgent._planner_node` (lines 98-106): audit-only
date scan. -/
def planner_node (s : AgentState) : AgentState :=
  let doc_context :=
    String.intercalate "\n" (s.retrieved_docs.map SearchResult.content)
  { s with trace := s.trace ++
      ["Planner: Found " ++ toString (countDates doc_context) ++
        " dates, route=" ++ s.route] }

/-- Embedding of `HybridAgent._should_query_sql` (lines 108-112). -/
def should_query_sql (s : AgentState) : String :=
  if s.route = "sql" ∨ s.route = "hybrid" then "sql" else "rag_only"

/-- Embedding of `HybridAgent._nl_to_sql_node` (lines 114-126). -/
def nl_to_sql_node (O : Oracles) (s : AgentState) : AgentState :=
  let doc_context :=
    String.intercalate "\n" (s.retrieved_docs.map SearchResult.content)
  let sql := cleanSql (O.genSqlRaw s.question O.schema doc_context)
  { s with sql := sql,
           trace := s.trace ++ ["Generated SQL: " ++ sql.take 100 ++ "..."] }

/-- Embedding of `HybridAgent._executor_node` (lines 128-142): empty SQL
synthesizes the
trivial successful empty result without touching the database. -/
def executor_node (O : Oracles) (s : AgentState) : AgentState :=
  if s.sql = "" then
    { s with sql_results := .result ⟨true, [], [], none⟩ }
  else
    let result := O.dbExecute s.sql
    { s with sql_results := .result result,
             trace := s.trace ++
               [if result.success then
                  "SQL success: " ++ toString result.rows.length ++ " rows"
                else "SQL error: " ++ result.error.getD ""] }

/-- Embedding of `HybridAgent._should_repair` (lines 144-152): the cap
check comes first,
so `sql_results["success"]` is only read below the cap. -/
def should_repair (s : AgentState) : Except PyError String :=
  if 2 ≤ s.repair_count then .ok "synthesize"
  else
    match s.sql_results with
    | .emptyDict => .error (.keyError "success")
    | .result q => if q.success then .ok "synthesize" else .ok "repair"

/-- Embedding of `HybridAgent._repair_node` (lines 154-166). -/
def repair_node (O : Oracles) (s : AgentState) : Except PyError AgentState :=
  match s.sql_results with
  | .emptyDict => .error (.keyError "error")
  | .result q =>
    let fixed := cleanSql (O.repairRaw s.sql (q.error.getD "") O.schema)
    .ok { s with repair_count := s.repair_count + 1, sql := fixed,
                 trace := s.trace ++
                   ["Repair attempt " ++ toString (s.repair_count + 1) ++
                     ": " ++ fixed.take 100 ++ "..."] }

def AnswerValue.render : AnswerValue → String
  | .intVal n => toString n
  | .floatVal q => toString q
  | .jsonVal payload => payload
  | .textVal s => s

/-- Embedding of `HybridAgent._synthesizer_node` (lines 168-199).  The
very first use of
`sql_results` reads its `"success"` key (line 175), which raises `KeyError`
when the field is still the initial empty dict. -/
def synthesizer_node (O : Oracles) (s : AgentState) :
    Except PyError AgentState :=
  let doc_context := String.intercalate "\n"
    (s.retrieved_docs.map fun d => d.id ++ ": " ++ d.content)
  match s.sql_results with
  | .emptyDict => .error (.keyError "success")
  | .result q =>
    let sql_results_str := if q.success then O.jsonDumps q.rows else ""
    let ans := O.synth s.question s.format_hint doc_context sql_results_str
    let final_answer := parse_answer O.jsonLoads ans.1 s.format_hint
    .ok { s with
          final_answer := some final_answer,
          explanation := ans.2,
          citations := extract_citations_ok s.retrieved_docs q s.sql,
          confidence := confidence_ok s.retrieved_docs q s.repair_count,
          trace := s.trace ++
            ["Synthesized answer: " ++ final_answer.render] }

/-- The LangGraph node set of `_build_graph` plus the `END` sentinel. -/
inductive Node where
  | router | retriever | planner | nl2sql | executor | repair | synthesizer
  | done
  deriving DecidableEq, Repr

/-- One LangGraph transition: run the node, then follow its outgoing
(conditional) edge exactly as wired in `_build_graph` (lines 38-82). -/
def stepGraph (O : Oracles) : Node → AgentState →
    Except PyError (Node × AgentState)
  | .router, s => .ok (.retriever, route_node O s)
  | .retriever, s => .ok (.planner, retriever_node O s)
  | .planner, s =>
    if should_query_sql (planner_node s) = "sql" then
      .ok (.nl2sql, planner_node s)
    else .ok (.synthesizer, planner_node s)
  | .nl2sql, s => .ok (.executor, nl_to_sql_node O s)
  | .executor, s =>
    match should_repair (executor_node O s) with
    | .error e => .error e
    | .ok d =>
      if d = "repair" then .ok (.repair, executor_node O s)
      else .ok (.synthesizer, executor_node O s)
  | .repair, s =>
    match repair_node O s with
    | .error e => .error e
    | .ok s' => .ok (.executor, s')
  | .synthesizer, s =>
    match synthesizer_node O s with
    | .error e => .error e
    | .ok s' => .ok (.done, s')
  | .done, s => .ok (.done, s)

/-- Fuel-indexed graph driver (the LangGraph recursion limit). -/
def runGraph (O : Oracles) : Nat → Node → AgentState →
    Except PyError AgentState
  | 0, _, _ => .error .recursionLimit
  | fuel + 1, n, s =>
    if n = .done then .ok s
    else
      match stepGraph O n s with
      | .error e => .error e
      | .ok (n', s') => runGraph O fuel n' s'

/-- The initial state dict built by `HybridAgent.run` (lines 272-285):
`sql_results` starts as the empty mapping. -/
def initialState (question format_hint : String) : AgentState :=
  { question := question, format_hint := format_hint, route := "",
    retrieved_docs := [], sql := "", sql_results := .emptyDict,
    final_answer := none, explanation := "", citations := [],
    confidence := 0, repair_count := 0, trace := [] }

/-- Embedding of `HybridAgent.run` (lines 270-296): invoke the compiled
graph on the
initial state (the LangGraph default recursion limit is 25). -/
def HybridAgent.run (O : Oracles) (question format_hint : String) :
    Except PyError AgentState :=
  runGraph O 25 .router (initialState question format_hint)

/-- States reachable by the graph driver from some initial state. -/
inductive Reachable (O : Oracles) : Node → AgentState → Prop where
  | init (q fh : String) : Reachable O .router (initialState q fh)
  | next {n s n' s'} : Reachable O n s → stepGraph O n s = .ok (n', s') →
      Reachable O n' s'

/-- A concrete oracle whose router label is `rag` and whose other ports are
trivial. -/
def ragOracle : Oracles :=
  { classify := fun _ => "rag", retrieve := fun _ => [], schema := "",
    genSqlRaw := fun _ _ _ => "", repairRaw := fun _ _ _ => "",
    synth := fun _ _ _ _ => ("", ""),
    dbExecute := fun _ => ⟨false, [], [], some "no db"⟩,
    jsonLoads := fun _ => none, jsonDumps := fun _ => "[]" }

/-! ## Theorems -/

theorem strContains_iff (s pat : String) :
    strContains s pat = true ↔ pat.toList <:+: s.toList := by
  simp [strContains]

/-- C3: every LLM route label normalizes to exactly one of `hybrid`, `sql`,
`rag`, decided by case-insensitive substring match in priority order
hybrid > sql > rag on the lower-cased stripped label; labels containing
none of the three substrings normalize to `hybrid`. -/
theorem C3_route_normalization (classify : String → String)
    (question : String) :
    (Router.forward classify question = "hybrid" ∨
     Router.forward classify question = "sql" ∨
     Router.forward classify question = "rag") ∧
    Router.forward classify question =
      (if "hybrid".toList <:+: (stripStr (lowerStr (classify question))).toList
       then "hybrid"
       else if "sql".toList <:+: (stripStr (lowerStr (classify question))).toList
       then "sql"
       else if "rag".toList <:+: (stripStr (lowerStr (classify question))).toList
       then "rag"
       else "hybrid") := by
  constructor
  · unfold Router.forward normalizeRoute
    split
    · exact Or.inl rfl
    · split
      · exact Or.inr (Or.inl rfl)
      · split
        · exact Or.inr (Or.inr rfl)
        · exact Or.inl rfl
  · unfold Router.forward normalizeRoute
    simp only [strContains, decide_eq_true_eq]

theorem length_argsortAsc (sims : List ℚ) :
    (argsortAsc sims).length = sims.length := by
  simp [argsortAsc, List.length_insertionSort, List.length_range]

theorem length_pyTailSlice_le (k : Nat) (l : List α) :
    (pyTailSlice k l).length ≤ l.length := by
  unfold pyTailSlice
  split
  · exact le_rfl
  · simp [List.length_drop]

theorem argsortAsc_sorted (sims : List ℚ) :
    List.Sorted (KeyLE sims) (argsortAsc sims) :=
  List.sorted_insertionSort _ _

theorem argsortAsc_perm (sims : List ℚ) :
    List.Perm (argsortAsc sims) (List.range sims.length) :=
  List.perm_insertionSort _ _

theorem argsortAsc_nodup (sims : List ℚ) :
    (argsortAsc sims).Nodup :=
  (argsortAsc_perm sims).nodup_iff.mpr (List.nodup_range _)

theorem pyTailSlice_suffix (k : Nat) (l : List α) :
    pyTailSlice k l <:+ l := by
  unfold pyTailSlice
  split
  · exact List.suffix_rfl
  · exact List.drop_suffix _ _

/-- C9: searching an empty corpus returns `[]`; the result never has more
entries than the corpus (in particular when `k` exceeds the corpus size);
and search is deterministic: equal inputs give equal ranked output. -/
theorem C9_search_edge_cases (chunks : List Chunk) (sims sims0 : List ℚ)
    (k k0 : Nat) (hlen : sims.length = chunks.length)
    (_hk : chunks.length < k) :
    Retriever.search [] sims0 k0 = [] ∧
    (Retriever.search chunks sims k).length ≤ chunks.length ∧
    Retriever.search chunks sims k = Retriever.search chunks sims k := by
  refine ⟨rfl, ?_, rfl⟩
  unfold Retriever.search
  split
  · simp
  · rw [List.length_map]
    unfold searchIndices
    rw [List.length_reverse]
    calc (pyTailSlice k (argsortAsc sims)).length
        ≤ (argsortAsc sims).length := length_pyTailSlice_le _ _
      _ = chunks.length := by rw [length_argsortAsc, hlen]

/-- C9 witness: corpus of size 1, `k = 5`. -/
theorem C9_search_edge_cases_witness :
    (Retriever.search [⟨"a::chunk0", "x", "a"⟩] [1] 5).length ≤ 1 :=
  (C9_search_edge_cases [⟨"a::chunk0", "x", "a"⟩] [1] [] 5 0
    (by decide) (by decide)).2.1

/-- C10: with `top_k = 0` the Python slice `[-0:]` selects the entire
similarity array, so a non-empty corpus yields corpus-size results, not an
empty list. -/
theorem C10_search_topk_zero (chunks : List Chunk) (sims : List ℚ)
    (hne : chunks ≠ []) (hlen : sims.length = chunks.length) :
    (Retriever.search chunks sims 0).length = chunks.length ∧
    Retriever.search chunks sims 0 ≠ [] := by
  have hlenres : (Retriever.search chunks sims 0).length = chunks.length := by
    unfold Retriever.search
    rw [if_neg (by simpa using hne)]
    rw [List.length_map]
    unfold searchIndices pyTailSlice
    rw [if_pos rfl, List.length_reverse, length_argsortAsc, hlen]
  refine ⟨hlenres, ?_⟩
  intro hempty
  rw [hempty] at hlenres
  exact hne (List.length_eq_zero.mp hlenres.symm)

/-- C10 witness at a concrete corpus of size 2. -/
theorem C10_search_topk_zero_witness :
    (Retriever.search [⟨"a::chunk0", "x", "a"⟩, ⟨"a::chunk1", "y", "a"⟩]
        [1, 2] 0).length = 2 :=
  (C10_search_topk_zero [⟨"a::chunk0", "x", "a"⟩, ⟨"a::chunk1", "y", "a"⟩]
    [1, 2] (by decide) (by decide)).1

theorem searchIndices_pairwise (sims : List ℚ) (k : Nat) :
    List.Pairwise (fun i j => KeyLE sims j i) (searchIndices sims k) := by
  unfold searchIndices
  rw [List.pairwise_reverse]
  exact ((argsortAsc_sorted sims)).sublist (pyTailSlice_suffix k _).sublist

theorem searchIndices_nodup (sims : List ℚ) (k : Nat) :
    (searchIndices sims k).Nodup := by
  unfold searchIndices
  rw [List.nodup_reverse]
  exact (argsortAsc_nodup sims).sublist (pyTailSlice_suffix k _).sublist

theorem searchIndices_topk (sims : List ℚ) (k : Nat) :
    ∀ i ∈ searchIndices sims k, ∀ j, j < sims.length →
      j ∉ searchIndices sims k → simAt sims j ≤ simAt sims i := by
  intro i hi j hj hnj
  obtain ⟨pre, hpre⟩ :
      ∃ pre, argsortAsc sims = pre ++ pyTailSlice k (argsortAsc sims) := by
    unfold pyTailSlice
    split
    · exact ⟨[], rfl⟩
    · exact ⟨(argsortAsc sims).take _, (List.take_append_drop _ _).symm⟩
  have hi' : i ∈ pyTailSlice k (argsortAsc sims) := by
    have := hi
    unfold searchIndices at this
    exact List.mem_reverse.mp this
  have hj1 : j ∈ argsortAsc sims := by
    rw [(argsortAsc_perm sims).mem_iff]
    exact List.mem_range.mpr hj
  have hj2 : j ∈ pre := by
    rw [hpre] at hj1
    rcases List.mem_append.mp hj1 with h | h
    · exact h
    · exact absurd (by unfold searchIndices; exact List.mem_reverse.mpr h) hnj
  have hs := argsortAsc_sorted sims
  rw [hpre] at hs
  have hkey : KeyLE sims j i := (List.pairwise_append.mp hs).2.2 j hj2 i hi'
  rcases hkey with h | ⟨h, _⟩
  · exact le_of_lt h
  · exact le_of_eq h

/-- C6 counterexample: two chunks with exactly equal similarity scores come
back in reverse of their load order (`chunk1` before `chunk0`), because the
ascending argsort slice is reversed; this refutes the claimed
original-load-order tie-break. -/
theorem C6_counterexample :
    Retriever.search
        [⟨"doc::chunk0", "alpha", "doc"⟩, ⟨"doc::chunk1", "beta", "doc"⟩]
        [1, 1] 2
      = [⟨"doc::chunk1", "beta", "doc", 1⟩,
         ⟨"doc::chunk0", "alpha", "doc", 1⟩] ∧
    (Retriever.search
        [⟨"doc::chunk0", "alpha", "doc"⟩, ⟨"doc::chunk1", "beta", "doc"⟩]
        [1, 1] 2).map SearchResult.id ≠ ["doc::chunk0", "doc::chunk1"] := by
  decide

/-- C6 amended: `search` returns the `k` chunks of highest similarity in
non-increasing similarity order, but chunks with exactly equal similarity
appear in reverse of their original corpus load order (the ascending
argsort slice is reversed), not in original load order. -/
theorem C6_search_amended (chunks : List Chunk) (sims : List ℚ) (k : Nat) :
    List.Pairwise
      (fun i j => simAt sims j < simAt sims i ∨
        (simAt sims j = simAt sims i ∧ j ≤ i))
      (searchIndices sims k) ∧
    (searchIndices sims k).Nodup ∧
    (∀ i ∈ searchIndices sims k, ∀ j, j < sims.length →
        j ∉ searchIndices sims k → simAt sims j ≤ simAt sims i) ∧
    List.Pairwise (fun a b => b.score ≤ a.score)
      (Retriever.search chunks sims k) := by
  refine ⟨searchIndices_pairwise sims k, searchIndices_nodup sims k,
    searchIndices_topk sims k, ?_⟩
  unfold Retriever.search
  split
  · exact List.Pairwise.nil
  · rw [List.pairwise_map]
    refine (searchIndices_pairwise sims k).imp ?_
    intro i j hkey
    rcases hkey with h | ⟨h, _⟩
    · exact le_of_lt h
    · exact le_of_eq h

/-- C6 amended witness: corpus `[c0, c1]` with similarities `[1, 2]` and
`k = 1` selects index 1; the excluded index 0 has a smaller score. -/
theorem C6_search_amended_witness :
    simAt [1, 2] 0 ≤ simAt [1, 2] 1 :=
  (C6_search_amended [⟨"a::chunk0", "x", "a"⟩, ⟨"a::chunk1", "y", "a"⟩]
      [1, 2] 1).2.2.1 1 (by decide) 0 (by decide) (by decide)

theorem roundHalfEven_nonneg {q : ℚ} (h : 0 ≤ q) : 0 ≤ roundHalfEven q := by
  unfold roundHalfEven
  have hf : (0 : ℤ) ≤ ⌊q⌋ := Int.floor_nonneg.mpr h
  split
  · exact hf
  · split
    · omega
    · split <;> omega

theorem roundHalfEven_le {q : ℚ} {n : ℤ} (h : q ≤ (n : ℚ)) :
    roundHalfEven q ≤ n := by
  have hfl : ⌊q⌋ ≤ n := by
    have h1 : ⌊q⌋ ≤ ⌊(n : ℚ)⌋ := Int.floor_le_floor h
    simpa using h1
  have hplus : 0 < Int.fract q → ⌊q⌋ + 1 ≤ n := by
    intro hpos
    have h1 : (⌊q⌋ : ℚ) < q := by
      have h2 : Int.fract q = q - ⌊q⌋ := rfl
      rw [h2] at hpos
      linarith
    have h3 : (⌊q⌋ : ℚ) < (n : ℚ) := lt_of_lt_of_le h1 h
    have h4 : ⌊q⌋ < n := by exact_mod_cast h3
    omega
  unfold roundHalfEven
  split
  · exact hfl
  · rename_i h1
    split
    · rename_i h2
      exact hplus (lt_trans (by norm_num) h2)
    · rename_i h2
      have heq : Int.fract q = 1/2 := le_antisymm (not_lt.mp h2) (not_lt.mp h1)
      split
      · exact hfl
      · exact hplus (by rw [heq]; norm_num)

theorem round2_nonneg {q : ℚ} (h : 0 ≤ q) : 0 ≤ round2 q := by
  unfold round2
  have h1 : 0 ≤ roundHalfEven (q * 100) :=
    roundHalfEven_nonneg (by positivity)
  positivity

theorem round2_le_one {q : ℚ} (h : q ≤ 1) : round2 q ≤ 1 := by
  unfold round2
  have h1 : roundHalfEven (q * 100) ≤ (100 : ℤ) :=
    roundHalfEven_le (by push_cast; linarith)
  rw [div_le_one (by norm_num)]
  exact_mod_cast h1

theorem roundHalfEven_intCast (n : ℤ) : roundHalfEven (n : ℚ) = n := by
  unfold roundHalfEven
  rw [Int.fract_intCast]
  norm_num

theorem round2_div100 (n : ℤ) : round2 ((n : ℚ)/100) = (n : ℚ)/100 := by
  unfold round2
  rw [div_mul_cancel₀ _ (by norm_num : (100 : ℚ) ≠ 0), roundHalfEven_intCast]

/-- C4: the confidence equals `round2(clamp01(0.5 + 0.3·[sql success with
rows] + 0.2·(mean retrieval score)·[any docs] − 0.1·repairs))`; it always
lies in [0, 1]; one 0.9-score chunk with successful non-empty SQL and no
repairs gives 0.98; two repairs with failing SQL and no retrieval give
0.3. -/
theorem C4_confidence (docs : List SearchResult) (q : QueryResult)
    (rc : Nat) :
    calculate_confidence docs (.result q) rc =
      .ok (confidence_ok docs q rc) ∧
    confidence_ok docs q rc =
      round2 (max 0 (min 1 ((1 : ℚ)/2
        + (if q.success = true ∧ q.rows ≠ [] then 3/10 else 0)
        + (if docs ≠ [] then
            ((docs.map SearchResult.score).sum / docs.length) * (2/10)
          else 0)
        - rc * (1/10)))) ∧
    0 ≤ confidence_ok docs q rc ∧ confidence_ok docs q rc ≤ 1 ∧
    confidence_ok [⟨"policy::chunk0", "p", "policy", 9/10⟩]
      ⟨true, ["c"], [[("c", "1")]], none⟩ 0 = 49/50 ∧
    confidence_ok [] ⟨false, [], [], some "err"⟩ 2 = 3/10 := by
  refine ⟨rfl, ?_, ?_, ?_, ?_, ?_⟩
  · unfold confidence_ok
    cases hqs : q.success <;> rcases hrows : q.rows with _ | ⟨r, rs⟩ <;>
      rcases hdocs : docs with _ | ⟨d, ds⟩ <;> simp
  · exact round2_nonneg (le_max_left _ _)
  · exact round2_le_one (max_le (by norm_num) (min_le_left _ _))
  · unfold confidence_ok
    norm_num
    have h4 : (49 : ℚ)/50 = ((98 : ℤ) : ℚ)/100 := by norm_num
    rw [h4, round2_div100]
  · unfold confidence_ok
    norm_num
    have h4 : (3 : ℚ)/10 = ((30 : ℤ) : ℚ)/100 := by norm_num
    rw [h4, round2_div100]

/-- C4 has no propositional hypotheses; still, a concrete instance. -/
theorem C4_confidence_witness :
    confidence_ok [] ⟨false, [], [], some "err"⟩ 2 = 3/10 :=
  (C4_confidence [] ⟨false, [], [], some "err"⟩ 2).2.2.2.2.2

/-- C5: citations are duplicate-free; every retrieved chunk id scoring
above 0.1 is cited; every citation is such a chunk id or a known table
name that appears in a successfully executed non-empty SQL text; when
execution failed, no known table name is cited. -/
theorem C5_citations (docs : List SearchResult) (q : QueryResult)
    (sql : String) (hdisj : ∀ d ∈ docs, d.id ∉ knownTables) :
    extract_citations docs (.result q) sql =
      .ok (extract_citations_ok docs q sql) ∧
    (extract_citations_ok docs q sql).Nodup ∧
    (∀ d ∈ docs, (1 : ℚ)/10 < d.score →
      d.id ∈ extract_citations_ok docs q sql) ∧
    (∀ c ∈ extract_citations_ok docs q sql,
      (∃ d ∈ docs, d.id = c ∧ (1 : ℚ)/10 < d.score) ∨
      (q.success = true ∧ sql ≠ "" ∧ c ∈ knownTables)) ∧
    (q.success = false → ∀ t ∈ knownTables,
      t ∉ extract_citations_ok docs q sql) := by
  refine ⟨rfl, List.nodup_dedup _, ?_, ?_, ?_⟩
  · intro d hd hscore
    unfold extract_citations_ok
    rw [List.mem_dedup]
    have hmem : d.id ∈ (docs.filter fun x => (1 : ℚ)/10 < x.score).map
        SearchResult.id := by
      exact List.mem_map_of_mem _ (List.mem_filter.mpr ⟨hd, by
        simpa using hscore⟩)
    split
    · exact List.mem_append_left _ hmem
    · exact hmem
  · intro c hc
    unfold extract_citations_ok at hc
    rw [List.mem_dedup] at hc
    have hdoc : c ∈ (docs.filter fun x => (1 : ℚ)/10 < x.score).map
          SearchResult.id →
        ∃ d ∈ docs, d.id = c ∧ (1 : ℚ)/10 < d.score := by
      intro h
      obtain ⟨d, hd, rfl⟩ := List.mem_map.mp h
      obtain ⟨hd1, hd2⟩ := List.mem_filter.mp hd
      exact ⟨d, hd1, rfl, by simpa using hd2⟩
    split at hc
    · rename_i hcond
      rcases List.mem_append.mp hc with h | h
      · exact Or.inl (hdoc h)
      · exact Or.inr ⟨hcond.1, hcond.2, (List.mem_filter.mp h).1⟩
    · exact Or.inl (hdoc hc)
  · intro hfail t ht hmem
    unfold extract_citations_ok at hmem
    rw [List.mem_dedup] at hmem
    rw [if_neg (by simp [hfail])] at hmem
    obtain ⟨d, hd, rfl⟩ := List.mem_map.mp hmem
    exact hdisj d (List.mem_filter.mp hd).1 ht

/-- C5 witness: one high-scoring chunk, failing SQL result. -/
theorem C5_citations_witness :
    (extract_citations_ok [⟨"a::chunk0", "x", "a", 1⟩]
      ⟨false, [], [], some "e"⟩ "SELECT 1").Nodup :=
  (C5_citations [⟨"a::chunk0", "x", "a", 1⟩] ⟨false, [], [], some "e"⟩
    "SELECT 1" (by decide)).2.1

theorem round2_decimal3 : round2 ((123456 : ℚ)/1000) = 12346/100 := by
  unfold round2 roundHalfEven
  have harg : ((123456 : ℚ)/1000) * 100 = 123456/10 := by norm_num
  rw [harg]
  have hfl : ⌊(123456/10 : ℚ)⌋ = 12345 := by
    rw [Int.floor_eq_iff]
    norm_num
  have hfr : Int.fract ((123456 : ℚ)/10) = 3/5 := by
    unfold Int.fract
    rw [hfl]
    norm_num
  rw [hfr, hfl]
  norm_num

/-- C7: the answer parser is total (modelled without any escaping
exception); hint `int` on "The answer is 42 units" gives 42; hint `float`
on "$123.456" gives 123.46; when the hint-directed parse raises, the result
is the `json.loads` fallback, or the stripped raw text if that fails too;
when it succeeds its value is returned unchanged. -/
theorem C7_parse_answer (J : String → Option AnswerValue)
    (raw hint : String) :
    parse_answer J "The answer is 42 units" "int" = .intVal 42 ∧
    parse_answer J "$123.456" "float" = .floatVal (12346/100) ∧
    (∀ e, parseByHint J (stripFences raw) hint = .error e →
      parse_answer J raw hint =
        (match J (stripFences raw) with
         | some v => v
         | none => .textVal (stripFences raw))) ∧
    (∀ v, parseByHint J (stripFences raw) hint = .ok v →
      parse_answer J raw hint = v) := by
  refine ⟨rfl, ?_, ?_, ?_⟩
  · have h1 : parse_answer J "$123.456" "float"
        = .floatVal (round2 (123 + 456 / 10 ^ 3)) := rfl
    rw [h1]
    have h2 : (123 : ℚ) + 456 / 10 ^ 3 = (123456 : ℚ)/1000 := by norm_num
    rw [h2, round2_decimal3]
  · intro e he
    unfold parse_answer
    rw [he]
  · intro v hv
    unfold parse_answer
    rw [hv]

/-- C7 witness: an `int` hint with no digit falls through the failed
`json.loads` to the raw text. -/
theorem C7_parse_answer_witness :
    parse_answer (fun _ => none) "abc" "int" = .textVal "abc" := by
  have h := (C7_parse_answer (fun _ => none) "abc" "int").2.2.1
    .attributeError rfl
  exact h.trans rfl

/-- C8: with empty SQL text the executor does not consult the database
oracle (any two oracles give identical results) and installs the trivial
successful empty result (success, no rows, no columns). -/
theorem C8_executor_empty_sql (O O2 : Oracles) (s : AgentState)
    (h : s.sql = "") :
    executor_node O s =
      { s with sql_results := .result ⟨true, [], [], none⟩ } ∧
    executor_node O s = executor_node O2 s := by
  unfold executor_node
  simp only [if_pos h]
  exact ⟨trivial, trivial⟩

/-- C8 witness: the initial state has empty SQL. -/
theorem C8_executor_empty_sql_witness :
    executor_node ragOracle (initialState "q" "str") =
      { initialState "q" "str" with
        sql_results := .result ⟨true, [], [], none⟩ } :=
  (C8_executor_empty_sql ragOracle ragOracle (initialState "q" "str") rfl).1

theorem synthesizer_node_emptyDict (O : Oracles) (s : AgentState)
    (h : s.sql_results = .emptyDict) :
    synthesizer_node O s = .error (.keyError "success") := by
  unfold synthesizer_node
  rw [h]

theorem synthesizer_node_ok {O : Oracles} {s s' : AgentState}
    (h : synthesizer_node O s = .ok s') :
    s'.repair_count = s.repair_count ∧ s'.sql_results = s.sql_results := by
  unfold synthesizer_node at h
  split at h
  · cases h
  · cases h
    exact ⟨rfl, rfl⟩

theorem repair_node_ok {O : Oracles} {s s' : AgentState}
    (h : repair_node O s = .ok s') :
    s'.repair_count = s.repair_count + 1 ∧ s'.sql_results = s.sql_results := by
  unfold repair_node at h
  split at h
  · cases h
  · cases h
    exact ⟨rfl, rfl⟩

theorem executor_node_repair_count (O : Oracles) (s : AgentState) :
    (executor_node O s).repair_count = s.repair_count := by
  unfold executor_node
  split <;> rfl

theorem should_repair_repair {s : AgentState}
    (h : should_repair s = .ok "repair") :
    s.repair_count ≤ 1 ∧
    ∃ q, s.sql_results = .result q ∧ q.success = false := by
  unfold should_repair at h
  split at h
  · simp at h
  · rename_i hcap
    refine ⟨by omega, ?_⟩
    split at h
    · cases h
    · rename_i q hq
      split at h
      · simp at h
      · rename_i hqs
        exact ⟨q, hq, by simpa using hqs⟩

/-- The inductive repair-loop invariant of the graph. -/
theorem reachable_invariant {O : Oracles} {n : Node} {s : AgentState}
    (h : Reachable O n s) :
    s.repair_count ≤ 2 ∧
    (n = .repair → s.repair_count ≤ 1 ∧
      ∃ q, s.sql_results = .result q ∧ q.success = false) := by
  induction h with
  | init q fh => exact ⟨by simp [initialState], fun hc => nomatch hc⟩
  | @next n s n' s' hr hstep ih =>
    cases n with
    | router =>
      simp only [stepGraph] at hstep
      cases hstep
      exact ⟨ih.1, fun hc => nomatch hc⟩
    | retriever =>
      simp only [stepGraph] at hstep
      cases hstep
      exact ⟨ih.1, fun hc => nomatch hc⟩
    | planner =>
      simp only [stepGraph] at hstep
      split at hstep <;> cases hstep <;>
        exact ⟨ih.1, fun hc => nomatch hc⟩
    | nl2sql =>
      simp only [stepGraph] at hstep
      cases hstep
      exact ⟨ih.1, fun hc => nomatch hc⟩
    | executor =>
      simp only [stepGraph] at hstep
      split at hstep
      · cases hstep
      · rename_i d hd
        split at hstep
        · rename_i hrep
          cases hstep
          subst hrep
          obtain ⟨h1, h2⟩ := should_repair_repair hd
          exact ⟨by omega, fun _ => ⟨h1, h2⟩⟩
        · cases hstep
          refine ⟨?_, fun hc => nomatch hc⟩
          rw [executor_node_repair_count]
          exact ih.1
    | repair =>
      simp only [stepGraph] at hstep
      split at hstep
      · cases hstep
      · rename_i t ht
        cases hstep
        obtain ⟨h1, _⟩ := repair_node_ok ht
        obtain ⟨h2, _⟩ := ih.2 rfl
        exact ⟨by omega, fun hc => nomatch hc⟩
    | synthesizer =>
      simp only [stepGraph] at hstep
      split at hstep
      · cases hstep
      · rename_i t ht
        cases hstep
        obtain ⟨h1, _⟩ := synthesizer_node_ok ht
        exact ⟨by omega, fun hc => nomatch hc⟩
    | done =>
      simp only [stepGraph] at hstep
      cases hstep
      exact ⟨ih.1, fun hc => nomatch hc⟩

/-- C2: in every reachable workflow state the repair counter is at most 2;
the repair node is only entered with a failed execution result and counter
below 2; at counter 2 `_should_repair` says "synthesize" regardless of the
result; and the synthesizer leaves the counter and the (last, possibly
failing) SQL result untouched. -/
theorem C2_repair_bound (O : Oracles) (n : Node) (s : AgentState)
    (h : Reachable O n s) :
    s.repair_count ≤ 2 ∧
    (n = .repair → s.repair_count < 2 ∧
      ∃ q, s.sql_results = .result q ∧ q.success = false) ∧
    (∀ t : AgentState, 2 ≤ t.repair_count →
      should_repair t = .ok "synthesize") ∧
    (∀ t t' : AgentState, synthesizer_node O t = .ok t' →
      t'.repair_count = t.repair_count ∧ t'.sql_results = t.sql_results) := by
  refine ⟨(reachable_invariant h).1, ?_, ?_, ?_⟩
  · intro hn
    obtain ⟨h1, h2⟩ := (reachable_invariant h).2 hn
    exact ⟨by omega, h2⟩
  · intro t ht
    unfold should_repair
    rw [if_pos ht]
  · intro t t' ht
    exact synthesizer_node_ok ht

/-- C2 witness: the initial state is reachable and satisfies the bound. -/
theorem C2_repair_bound_witness :
    (initialState "q" "str").repair_count ≤ 2 :=
  (C2_repair_bound ragOracle .router (initialState "q" "str")
    (Reachable.init "q" "str")).1

/-- On any oracle whose route label normalizes to `rag`, the run follows
router → retriever → planner → synthesizer and dies reading `"success"`
from the still-empty `sql_results` dict. -/
theorem rag_route_raises (O : Oracles) (q fh : String)
    (h : Router.forward O.classify q = "rag") :
    HybridAgent.run O q fh = .error (.keyError "success") := by
  have h2 : runGraph O 25 .router (initialState q fh)
      = runGraph O 23 .planner
          (retriever_node O (route_node O (initialState q fh))) := rfl
  set s2 := retriever_node O (route_node O (initialState q fh)) with hs2def
  have hroute : s2.route = "rag" := h
  have hsqlres : (planner_node s2).sql_results = SqlResults.emptyDict := rfl
  have hpr : (planner_node s2).route = "rag" := hroute
  have hsq : should_query_sql (planner_node s2) = "rag_only" := by
    unfold should_query_sql
    rw [hpr]
    decide
  have h4 : stepGraph O .planner s2 = .ok (.synthesizer, planner_node s2) := by
    show (if should_query_sql (planner_node s2) = "sql"
          then Except.ok (Node.nl2sql, planner_node s2)
          else Except.ok (Node.synthesizer, planner_node s2)) = _
    rw [hsq]
    rfl
  have h5 : synthesizer_node O (planner_node s2)
      = .error (.keyError "success") :=
    synthesizer_node_emptyDict O _ hsqlres
  have h3 : runGraph O 23 .planner s2 =
      match stepGraph O .planner s2 with
      | .error e => .error e
      | .ok (n', s') => runGraph O 22 n' s' := rfl
  have h6 : runGraph O 22 .synthesizer (planner_node s2) =
      match stepGraph O .synthesizer (planner_node s2) with
      | .error e => .error e
      | .ok (n', s') => runGraph O 21 n' s' := rfl
  have h7 : stepGraph O .synthesizer (planner_node s2)
      = .error (.keyError "success") := by
    show (match synthesizer_node O (planner_node s2) with
          | .error e => Except.error e
          | .ok s' => Except.ok (Node.done, s')) = _
    rw [h5]
  unfold HybridAgent.run
  rw [h2, h3, h4]
  show runGraph O 22 Node.synthesizer (planner_node s2) = _
  rw [h6, h7]

/-- C1 (code bug): a run whose route label is `rag` skips SQL generation
and execution, but then crashes with a KeyError on the success key in the
synthesizer — `sql_results` is still the initial empty mapping — instead of
terminating normally with an empty-SQL final result. -/
theorem C1_rag_run_keyerror :
    HybridAgent.run ragOracle "Which products are seasonal?" "str"
      = .error (.keyError "success") :=
  rag_route_raises ragOracle "Which products are seasonal?" "str" (by decide)

end RetailCopilot
